import Mathlib

/-!
# The enum fixture `src/example/test1.cpp`

The repository consists of one C++ file of declarations.  The file is embedded
line by line as text (`test1_cpp`); a small reader for the declaration subset
of C++ (lexer, then parser) turns the text into a declaration tree, and the
properties of the fixture are stated on the tree that the reader produces.
-/

namespace Test1

/-! ## The source text -/

/-- The 44 lines of `src/example/test1.cpp`, in order, without line ends.
A brace is written as an escape (7b opens, 7d closes). -/
def test1_cpp : List String :=
  [ "#include \"ignore_enums.hpp\""
  , ""
  , "namespace person \x7b"
  , "    namespace IDs \x7b"
  , "        enum class Types \x7b"
  , "            NONE = 100,"
  , "            PERSON_ONE,"
  , "            PERSON_TWO,"
  , "            PERSON_THREE,"
  , "            PERSON_FOUR,"
  , "        \x7d"
  , "    \x7d"
  , "\x7d"
  , ""
  , "namespace room \x7b"
  , "    namespace IDs \x7b"
  , "        namespace app \x7b"
  , "            enum class Types \x7b"
  , "                NONE = 200,"
  , "                ROOM_ONE,"
  , "                ROOM_TWO,"
  , "                ROOM_THREE,"
  , "                ROOM_FOUR,"
  , "            \x7d"
  , "        \x7d"
  , "    \x7d"
  , "\x7d"
  , ""
  , "template <class T, int N>"
  , "class SomeClassWithTypesEnum \x7b"
  , "    enum class Types \x7b"
  , "        TENSOR,"
  , "        TRANSFORM,"
  , "        QUATERNION"
  , "    \x7d;"
  , "\x7d;"
  , ""
  , "class AClassWithTypesEnum \x7b"
  , "    enum class Types \x7b"
  , "        TENSOR,"
  , "        TRANSFORM,"
  , "        QUATERNION"
  , "    \x7d;"
  , "\x7d;"
  ]

/-! ## Lexer -/

/-- A lexical token: a word (identifier or keyword), a decimal number, a
string literal (its contents), or any other single character. -/
inductive Token where
  | word (s : String)
  | num (n : Nat)
  | str (s : String)
  | sym (c : Char)
  deriving DecidableEq, Repr

/-- What the lexer is in the middle of. -/
inductive LexState where
  | idle
  | inWord (acc : List Char)
  | inNum (n : Nat)
  | inStr (acc : List Char)

def isWordStart (c : Char) : Bool := c.isAlpha || c == '_'

def isWordRest (c : Char) : Bool := c.isAlphanum || c == '_'

def isBlank (c : Char) : Bool := c == ' ' || c == '\t' || c == '\r'

def digitVal (c : Char) : Nat := c.toNat - '0'.toNat

/-- The token a finished state stands for, if any. An unterminated string
literal keeps what was read. -/
def LexState.flush : LexState → List Token
  | .idle => []
  | .inWord acc => [.word (String.mk acc.reverse)]
  | .inNum n => [.num n]
  | .inStr acc => [.str (String.mk acc.reverse)]

/-- Start a token at character `c` from the idle state. -/
def lexStart (c : Char) : LexState × List Token :=
  if isBlank c then (.idle, [])
  else if isWordStart c then (.inWord [c], [])
  else if c.isDigit then (.inNum (digitVal c), [])
  else if c == '"' then (.inStr [], [])
  else (.idle, [.sym c])

/-- One step of the lexer: the next state and the tokens completed by `c`. -/
def lexStep (st : LexState) (c : Char) : LexState × List Token :=
  match st with
  | .idle => lexStart c
  | .inWord acc =>
      if isWordRest c then (.inWord (c :: acc), [])
      else
        let r := lexStart c
        (r.1, st.flush ++ r.2)
  | .inNum n =>
      if c.isDigit then (.inNum (10 * n + digitVal c), [])
      else
        let r := lexStart c
        (r.1, st.flush ++ r.2)
  | .inStr acc =>
      if c == '"' then (.idle, st.flush)
      else (.inStr (c :: acc), [])

/-- Lex the characters of one line. -/
def lexChars : LexState → List Char → List Token
  | st, [] => st.flush
  | st, c :: cs =>
      let r := lexStep st c
      r.2 ++ lexChars r.1 cs

def lexLine (l : String) : List Token := lexChars .idle l.data

/-! ## Declaration tree -/

/-- A preprocessor directive: a line whose first token is the hash sign. -/
structure Directive where
  name : String
  args : List Token
  deriving DecidableEq, Repr

/-- A template parameter: its introducing word (class, typename or a type
keyword) and its name. -/
structure TParam where
  spec : String
  name : String
  deriving DecidableEq, Repr

/-- An enumerator with the tokens of its initialiser, when it has one. -/
structure Enumerator where
  name : String
  initialiser : Option (List Token)
  deriving DecidableEq, Repr

/-- A declaration. `semi` records whether the closing brace of a class or enum
is followed by a semicolon; `tparams` is the template parameter list of a
class template and `none` for a plain class. Anything that is not a namespace,
a class or an enum class is kept as `other` with its tokens. -/
inductive Decl where
  | ns (name : String) (body : List Decl)
  | cls (tparams : Option (List TParam)) (name : String) (body : List Decl) (semi : Bool)
  | enumClass (name : String) (items : List Enumerator) (semi : Bool)
  | other (toks : List Token)
  deriving Repr

structure TranslationUnit where
  directives : List Directive
  decls : List Decl
  deriving Repr

/-! ## Parser -/

def directiveOf : List Token → Option Directive
  | .sym c :: .word n :: rest => if c = '#' then some ⟨n, rest⟩ else none
  | .sym c :: rest => if c = '#' then some ⟨"", rest⟩ else none
  | _ => none

/-- The tokens of an initialiser: everything up to the next comma or closing
brace. -/
def takeInit : List Token → List Token × List Token
  | [] => ([], [])
  | t :: ts =>
      if t = .sym ',' ∨ t = .sym '}' then ([], t :: ts)
      else
        let r := takeInit ts
        (t :: r.1, r.2)

/-- The enumerator list after the opening brace, through the closing brace.
A trailing comma is accepted. -/
def parseEnumerators : Nat → List Token → Option (List Enumerator × List Token)
  | 0, _ => none
  | _ + 1, [] => none
  | f + 1, t :: rest =>
      match t with
      | .sym c => if c = '}' then some ([], rest) else none
      | .word n =>
          let r : Option (List Token) × List Token :=
            match rest with
            | .sym c :: r1 =>
                if c = '=' then
                  let s := takeInit r1
                  (some s.1, s.2)
                else (none, rest)
            | _ => (none, rest)
          match r.2 with
          | .sym c :: r2 =>
              if c = ',' then
                (parseEnumerators f r2).map fun p => (⟨n, r.1⟩ :: p.1, p.2)
              else if c = '}' then some ([⟨n, r.1⟩], r2)
              else none
          | _ => none
      | _ => none

/-- The template parameters after the opening angle bracket, through the
closing one. -/
def parseTParams : Nat → List Token → Option (List TParam × List Token)
  | 0, _ => none
  | f + 1, .word s :: .word n :: .sym c :: rest =>
      if c = ',' then (parseTParams f rest).map fun p => (⟨s, n⟩ :: p.1, p.2)
      else if c = '>' then some ([⟨s, n⟩], rest)
      else none
  | _ + 1, _ => none

/-- The head of a declaration, up to and including its opening brace. -/
inductive Head where
  | nsHead (name : String) (rest : List Token)
  | clsHead (tparams : Option (List TParam)) (name : String) (rest : List Token)
  | enumHead (name : String) (rest : List Token)
  | unknown

def classHead (tparams : Option (List TParam)) : List Token → Head
  | .word k :: .word n :: .sym c :: rest =>
      if k = "class" ∧ c = '{' then .clsHead tparams n rest else .unknown
  | _ => .unknown

def classify : List Token → Head
  | .word k :: .word n :: .sym c :: rest =>
      if k = "namespace" ∧ c = '{' then .nsHead n rest
      else if k = "class" ∧ c = '{' then .clsHead none n rest
      else .unknown
  | .word k :: .word k2 :: .word n :: .sym c :: rest =>
      if k = "enum" ∧ k2 = "class" ∧ c = '{' then .enumHead n rest else .unknown
  | .word k :: .sym c :: rest =>
      if k = "template" ∧ c = '<' then
        match parseTParams (rest.length + 1) rest with
        | some (ps, r) => classHead (some ps) r
        | none => .unknown
      else .unknown
  | _ => .unknown

/-- Drop the semicolon that closes a class or enum, and say whether it was
there. -/
def takeSemi : List Token → Bool × List Token
  | .sym c :: rest => if c = ';' then (true, rest) else (false, .sym c :: rest)
  | toks => (false, toks)

/-- The tokens of a declaration of another kind: through the first semicolon
outside braces, or through the brace block that ends it; never past the brace
that closes the enclosing scope. -/
def takeOther : Nat → List Token → List Token × List Token
  | _, [] => ([], [])
  | d, t :: ts =>
      if t = .sym ';' ∧ d = 0 then ([t], ts)
      else if t = .sym '{' then
        let r := takeOther (d + 1) ts
        (t :: r.1, r.2)
      else if t = .sym '}' then
        if d = 0 then ([], t :: ts)
        else if d = 1 then ([t], ts)
        else
          let r := takeOther (d - 1) ts
          (t :: r.1, r.2)
      else
        let r := takeOther d ts
        (t :: r.1, r.2)

/-- The declarations of a scope. With `nested` the scope ends at its closing
brace, which is consumed; otherwise it ends with the input. -/
def parseDecls : Nat → Bool → List Token → Option (List Decl × List Token)
  | 0, _, _ => none
  | _ + 1, nested, [] => if nested then none else some ([], [])
  | f + 1, nested, t :: ts =>
      if t = .sym '}' then
        if nested then some ([], ts) else none
      else
        let structured : Option (Decl × List Token) :=
          match classify (t :: ts) with
          | .nsHead n rest =>
              (parseDecls f true rest).map fun p => (.ns n p.1, p.2)
          | .clsHead tps n rest =>
              (parseDecls f true rest).map fun p =>
                (.cls tps n p.1 (takeSemi p.2).1, (takeSemi p.2).2)
          | .enumHead n rest =>
              (parseEnumerators (rest.length + 1) rest).map fun p =>
                (.enumClass n p.1 (takeSemi p.2).1, (takeSemi p.2).2)
          | .unknown => none
        let one : Decl × List Token :=
          match structured with
          | some r => r
          | none =>
              let r := takeOther 0 (t :: ts)
              (.other r.1, r.2)
        (parseDecls f nested one.2).map fun p => (one.1 :: p.1, p.2)

/-- The token lists of the lines, the directive lines apart. -/
def codeTokens (lines : List String) : List Token :=
  ((lines.map lexLine).filter fun l => (directiveOf l).isNone).flatten

/-- Read a file: its directives and the declarations of its global scope. -/
def parseFile (lines : List String) : Option TranslationUnit :=
  match parseDecls ((codeTokens lines).length + 1) false (codeTokens lines) with
  | some (ds, _) => some ⟨(lines.map lexLine).filterMap directiveOf, ds⟩
  | none => none

/-- The declaration tree of `src/example/test1.cpp`, as read from its text. -/
def fixture : TranslationUnit :=
  (parseFile test1_cpp).getD ⟨[], []⟩

/-! ## Scopes, names and values -/

/-- One level of enclosing scope: a namespace, or a class with its template
parameter list (`none` for a class that is not a template). -/
inductive Scope where
  | ns (name : String)
  | cls (tparams : Option (List TParam)) (name : String)
  deriving DecidableEq, Repr

def Scope.name : Scope → String
  | .ns n => n
  | .cls _ n => n

def Scope.isNamespace : Scope → Bool
  | .ns _ => true
  | .cls _ _ => false

def Scope.isClass : Scope → Bool
  | .ns _ => false
  | .cls _ _ => true

/-- An enum class together with its enclosing scopes, outermost first. -/
structure EnumInfo where
  scope : List Scope
  name : String
  items : List Enumerator
  deriving DecidableEq, Repr

mutual
/-- The enum classes declared in a declaration, at any depth, in source order. -/
def enumsIn (path : List Scope) : Decl → List EnumInfo
  | .ns n body => enumsInList (path ++ [.ns n]) body
  | .cls tps n body _ => enumsInList (path ++ [.cls tps n]) body
  | .enumClass n items _ => [⟨path, n, items⟩]
  | .other _ => []
def enumsInList (path : List Scope) : List Decl → List EnumInfo
  | [] => []
  | d :: ds => enumsIn path d ++ enumsInList path ds
end

def enumsOf (tu : TranslationUnit) : List EnumInfo := enumsInList [] tu.decls

/-- The kind of a declaration. -/
inductive Kind where
  | nspace
  | classTemplate
  | plainClass
  | enumClass
  | other
  deriving DecidableEq, Repr

/-- A class with a template parameter list is a class template. -/
def classKind : Option (List TParam) → Kind
  | some _ => .classTemplate
  | none => .plainClass

mutual
/-- Every declaration of the tree, at every nesting level, in source order,
with the names of its enclosing scopes, its own name and its kind. -/
def declsIn (path : List String) : Decl → List (List String × String × Kind)
  | .ns n body => (path, n, .nspace) :: declsInList (path ++ [n]) body
  | .cls tps n body _ => (path, n, classKind tps) :: declsInList (path ++ [n]) body
  | .enumClass n _ _ => [(path, n, .enumClass)]
  | .other _ => [(path, "", .other)]
def declsInList (path : List String) : List Decl → List (List String × String × Kind)
  | [] => []
  | d :: ds => declsIn path d ++ declsInList path ds
end

def allDecls (tu : TranslationUnit) : List (List String × String × Kind) :=
  declsInList [] tu.decls

/-- The scopes of a file, each as the path of names leading to it: the global
scope and the scope of every namespace and class. -/
def scopePaths (tu : TranslationUnit) : List (List String) :=
  [] :: ((allDecls tu).filter fun d => d.2.2 ≠ .enumClass ∧ d.2.2 ≠ .other).map
    fun d => d.1 ++ [d.2.1]

/-- The names of the enum classes declared directly in the scope at `path`. -/
def enumNamesIn (tu : TranslationUnit) (path : List String) : List String :=
  ((allDecls tu).filter fun d => d.1 = path ∧ d.2.2 = .enumClass).map fun d => d.2.1

/-- The fully qualified name of an enum class. -/
def qualifiedName (e : EnumInfo) : String :=
  "::".intercalate (e.scope.map Scope.name ++ [e.name])

def enumeratorNames (e : EnumInfo) : List String := e.items.map Enumerator.name

/-- Whether the innermost enclosing scope is a class. -/
def inClass (e : EnumInfo) : Bool :=
  match e.scope.getLast? with
  | some s => s.isClass
  | none => false

/-- Whether every enclosing scope is a namespace. -/
def inNamespace (e : EnumInfo) : Bool := e.scope.all Scope.isNamespace

/-- The value of an initialiser. Only an integer literal is evaluated. -/
def evalInit : List Token → Option Int
  | [.num n] => some n
  | _ => none

/-- The C++ rule for enumerator values: an initialiser gives the value, an
enumerator without one has the previous value plus one, and `next` is the value
an enumerator without initialiser gets at this position. -/
def valuesFrom (next : Int) : List Enumerator → Option (List (String × Int))
  | [] => some []
  | e :: es =>
      match e.initialiser with
      | none => (valuesFrom (next + 1) es).map fun vs => (e.name, next) :: vs
      | some toks =>
          match evalInit toks with
          | some v => (valuesFrom (v + 1) es).map fun vs => (e.name, v) :: vs
          | none => none

/-- The enumerators of an enum with their values; the first one without an
initialiser has the value 0. -/
def enumValues (e : EnumInfo) : Option (List (String × Int)) := valuesFrom 0 e.items

/-- The value of the enumerator `name` of the enum `e`. -/
def valueOf (e : EnumInfo) (name : String) : Option Int :=
  (enumValues e).bind fun vs => vs.lookup name

/-! ## Words of the text -/

def wordsOf (toks : List Token) : List String :=
  toks.filterMap fun t => match t with
    | .word w => some w
    | _ => none

def numbersOf (toks : List Token) : List Nat :=
  toks.filterMap fun t => match t with
    | .num n => some n
    | _ => none

def stringsOf (toks : List Token) : List String :=
  toks.filterMap fun t => match t with
    | .str x => some x
    | _ => none

def symbolsOf (toks : List Token) : List Char :=
  toks.filterMap fun t => match t with
    | .sym c => some c
    | _ => none

/-- The keywords of C++. -/
def cppKeywords : List String :=
  [ "alignas", "alignof", "and", "and_eq", "asm", "auto", "bitand", "bitor",
    "bool", "break", "case", "catch", "char", "char16_t", "char32_t", "class",
    "compl", "const", "constexpr", "const_cast", "continue", "decltype",
    "default", "delete", "do", "double", "dynamic_cast", "else", "enum",
    "explicit", "export", "extern", "false", "float", "for", "friend", "goto",
    "if", "inline", "int", "long", "mutable", "namespace", "new", "noexcept",
    "not", "not_eq", "nullptr", "operator", "or", "or_eq", "private",
    "protected", "public", "register", "reinterpret_cast", "return", "short",
    "signed", "sizeof", "static", "static_assert", "static_cast", "struct",
    "switch", "template", "this", "thread_local", "throw", "true", "try",
    "typedef", "typeid", "typename", "union", "unsigned", "using", "virtual",
    "void", "volatile", "wchar_t", "while", "xor", "xor_eq" ]

/-- The keywords that introduce a statement. -/
def statementKeywords : List String :=
  [ "if", "else", "for", "while", "do", "switch", "case", "default", "break",
    "continue", "return", "goto", "try", "catch", "throw" ]

mutual
/-- Every name a declaration introduces: namespaces, classes, template
parameters, enum classes and enumerators. -/
def declaredIn : Decl → List String
  | .ns n body => n :: declaredInList body
  | .cls tps n body _ =>
      n :: ((tps.getD []).map TParam.name ++ declaredInList body)
  | .enumClass n items _ => n :: items.map Enumerator.name
  | .other _ => []
def declaredInList : List Decl → List String
  | [] => []
  | d :: ds => declaredIn d ++ declaredInList ds
end

def declaredNames (tu : TranslationUnit) : List String := declaredInList tu.decls

mutual
/-- Every word of a declaration that stands where a name is used, not
introduced: the word that introduces a template parameter, the words of an
enumerator initialiser, and all the words of a declaration of another kind. -/
def referencedIn : Decl → List String
  | .ns _ body => referencedInList body
  | .cls tps _ body _ => (tps.getD []).map TParam.spec ++ referencedInList body
  | .enumClass _ items _ =>
      (items.map fun it => wordsOf (it.initialiser.getD [])).flatten
  | .other toks => wordsOf toks
def referencedInList : List Decl → List String
  | [] => []
  | d :: ds => referencedIn d ++ referencedInList ds
end

def referencedWords (tu : TranslationUnit) : List String := referencedInList tu.decls

/-- The words of the text that are not C++ keywords, in source order. -/
def nameOccurrences (lines : List String) : List String :=
  (wordsOf (codeTokens lines)).filter fun w => w ∉ cppKeywords

/-- How often the character `c` occurs in the text. -/
def charCount (lines : List String) (c : Char) : Nat :=
  (lines.map fun l => l.data.count c).sum

/-! ## The reader on the fixture -/

set_option maxRecDepth 100000

/-- The reader accepts the text of the fixture, and this is the tree it
produces. The two enums at namespace scope are not followed by a semicolon
(lines 11 and 24 of the file); the reader accepts an enum either way and records
the difference in `semi`. -/
theorem fixture_tree :
    parseFile test1_cpp = some fixture ∧
    fixture =
      ⟨[⟨"include", [.str "ignore_enums.hpp"]⟩],
       [ .ns "person"
           [ .ns "IDs"
               [ .enumClass "Types"
                   [ ⟨"NONE", some [.num 100]⟩, ⟨"PERSON_ONE", none⟩,
                     ⟨"PERSON_TWO", none⟩, ⟨"PERSON_THREE", none⟩,
                     ⟨"PERSON_FOUR", none⟩ ]
                   false ] ],
         .ns "room"
           [ .ns "IDs"
               [ .ns "app"
                   [ .enumClass "Types"
                       [ ⟨"NONE", some [.num 200]⟩, ⟨"ROOM_ONE", none⟩,
                         ⟨"ROOM_TWO", none⟩, ⟨"ROOM_THREE", none⟩,
                         ⟨"ROOM_FOUR", none⟩ ]
                       false ] ] ],
         .cls (some [⟨"class", "T"⟩, ⟨"int", "N"⟩]) "SomeClassWithTypesEnum"
           [ .enumClass "Types"
               [ ⟨"TENSOR", none⟩, ⟨"TRANSFORM", none⟩, ⟨"QUATERNION", none⟩ ]
               true ]
           true,
         .cls none "AClassWithTypesEnum"
           [ .enumClass "Types"
               [ ⟨"TENSOR", none⟩, ⟨"TRANSFORM", none⟩, ⟨"QUATERNION", none⟩ ]
               true ]
           true ]⟩ :=
  ⟨rfl, rfl⟩

/-- The reader keeps what is not a namespace, class or enum class: a variable
and a function come out as `other` declarations, also inside a namespace. -/
theorem reader_keeps_other_declarations :
    (parseFile ["namespace a \x7b", "int x = 3;", "int f() \x7b return x; \x7d", "\x7d"]).map allDecls =
      some [([], "a", .nspace), (["a"], "", .other), (["a"], "", .other)] := by
  decide

/-! ## Properties of the fixture -/

/-- C1: the fixture declares exactly four enum classes, each named `Types`;
their enclosing scopes are, in order, the namespaces person::IDs (depth 2), the
namespaces room::IDs::app (depth 3), the class template SomeClassWithTypesEnum
with parameters (class T, int N), and the plain class AClassWithTypesEnum. So
the file has nested namespaces and an enum class in a templated and in a
non-templated class. -/
theorem fixture_enum_scopes :
    (enumsOf fixture).map (fun e => (e.scope, e.name)) =
      [ ([.ns "person", .ns "IDs"], "Types"),
        ([.ns "room", .ns "IDs", .ns "app"], "Types"),
        ([.cls (some [⟨"class", "T"⟩, ⟨"int", "N"⟩]) "SomeClassWithTypesEnum"], "Types"),
        ([.cls none "AClassWithTypesEnum"], "Types") ] ∧
    (enumsOf fixture).length = 4 ∧
    ((allDecls fixture).filter fun d => d.2.2 = .enumClass).length = 4 ∧
    (∀ e ∈ enumsOf fixture, e.name = "Types") ∧
    (enumsOf fixture).map (fun e => e.scope.length) = [2, 3, 1, 1] ∧
    (allDecls fixture).filter (fun d => d.2.2 ≠ .enumClass) =
      [ ([], "person", .nspace), (["person"], "IDs", .nspace),
        ([], "room", .nspace), (["room"], "IDs", .nspace),
        (["room", "IDs"], "app", .nspace),
        ([], "SomeClassWithTypesEnum", .classTemplate),
        ([], "AClassWithTypesEnum", .plainClass) ] := by
  decide

/-- C2: every enum class declared inside a class of the fixture, the class
template included, has exactly the enumerators TENSOR, TRANSFORM, QUATERNION in
this order; these enums are SomeClassWithTypesEnum::Types and
AClassWithTypesEnum::Types, and their enumerator lists are equal. -/
theorem class_enum_enumerators :
    (∀ e ∈ enumsOf fixture, inClass e = true →
      enumeratorNames e = ["TENSOR", "TRANSFORM", "QUATERNION"]) ∧
    ((enumsOf fixture).filter inClass).map (fun e => (qualifiedName e, e.items)) =
      [ ("SomeClassWithTypesEnum::Types",
          [⟨"TENSOR", none⟩, ⟨"TRANSFORM", none⟩, ⟨"QUATERNION", none⟩]),
        ("AClassWithTypesEnum::Types",
          [⟨"TENSOR", none⟩, ⟨"TRANSFORM", none⟩, ⟨"QUATERNION", none⟩]) ] ∧
    (∀ e ∈ enumsOf fixture, ∀ e2 ∈ enumsOf fixture,
      inClass e = true → inClass e2 = true → e.items = e2.items) := by
  decide

/-- C3: every declaration of the fixture, at every nesting level, is a
namespace, a class template, a plain class or an enum class (enumerators and
template parameters belong to their enum and class). The only initialisers are
the integer literals 100 and 200, which are the only numbers of the text; the
text has no parenthesis, no statement keyword and no symbol besides braces,
comma, semicolon, the equals sign and the angle brackets. -/
theorem only_type_declarations :
    (∀ d ∈ allDecls fixture,
      d.2.2 = .nspace ∨ d.2.2 = .classTemplate ∨ d.2.2 = .plainClass ∨ d.2.2 = .enumClass) ∧
    (allDecls fixture).map (fun d => d.2.2) =
      [ .nspace, .nspace, .enumClass, .nspace, .nspace, .nspace, .enumClass,
        .classTemplate, .enumClass, .plainClass, .enumClass ] ∧
    ((enumsOf fixture).map fun e => e.items.filterMap Enumerator.initialiser) =
      [[[.num 100]], [[.num 200]], [], []] ∧
    numbersOf (codeTokens test1_cpp) = [100, 200] ∧
    (∀ w ∈ wordsOf (codeTokens test1_cpp), w ∉ statementKeywords) ∧
    (∀ c ∈ symbolsOf (codeTokens test1_cpp), c ∈ ['{', '}', ',', ';', '=', '<', '>']) ∧
    (symbolsOf (codeTokens test1_cpp)).count '=' = 2 := by
  decide

/-- A name used in an initialiser, or a variable declared from other names, is
seen as a reference: with `NONE = TENSOR,` in an enum, or with `int T = N;`
after a class template with the parameters T and N, the referenced words are no
longer keywords only, and the occurrences of names outnumber the declarations. -/
theorem reader_sees_references :
    (parseFile ["enum class E \x7b", "NONE = TENSOR,", "\x7d;"]).map referencedWords =
      some ["TENSOR"] ∧
    (parseFile ["enum class E \x7b", "NONE = TENSOR,", "\x7d;"]).map declaredNames =
      some ["E", "NONE"] ∧
    nameOccurrences ["enum class E \x7b", "NONE = TENSOR,", "\x7d;"] =
      ["E", "NONE", "TENSOR"] ∧
    (parseFile ["template <class T, int N>", "class C \x7b \x7d;", "int T = N;"]).map
        referencedWords = some ["class", "int", "int", "T", "N"] ∧
    (parseFile ["template <class T, int N>", "class C \x7b \x7d;", "int T = N;"]).map
        declaredNames = some ["C", "T", "N"] ∧
    nameOccurrences ["template <class T, int N>", "class C \x7b \x7d;", "int T = N;"] =
      ["T", "N", "C", "T", "N"] := by
  decide

/-- C4: the fixture has exactly one preprocessor directive, an include of
ignore_enums.hpp, and the hash sign occurs once in the whole text. In the rest
of the text every occurrence of a word that is not a C++ keyword is the
occurrence that declares it: these occurrences are, up to order, the list of
the names the file declares, one occurrence per declaration. The only words in
a position where a name is used are the keywords class and int of the template
parameter list, and the rest of the text has no string literal; so nothing
declared elsewhere is referred to. -/
theorem single_include :
    fixture.directives = [⟨"include", [.str "ignore_enums.hpp"]⟩] ∧
    (test1_cpp.filter fun l => (directiveOf (lexLine l)).isSome) =
      ["#include \"ignore_enums.hpp\""] ∧
    test1_cpp.head? = some "#include \"ignore_enums.hpp\"" ∧
    charCount test1_cpp '#' = 1 ∧
    (∀ w ∈ wordsOf (codeTokens test1_cpp), w ∈ cppKeywords ∨ w ∈ declaredNames fixture) ∧
    stringsOf (codeTokens test1_cpp) = [] ∧
    (nameOccurrences test1_cpp).Perm (declaredNames fixture) ∧
    (nameOccurrences test1_cpp).length = 29 ∧
    referencedWords fixture = ["class", "int"] ∧
    (∀ w ∈ referencedWords fixture, w ∈ cppKeywords) := by
  decide

/-- C5: with the C++ rule for enumerator values, person::IDs::Types has
NONE=100 up to PERSON_FOUR=104, room::IDs::app::Types has NONE=200 up to
ROOM_FOUR=204, and both class-scoped enums have TENSOR=0, TRANSFORM=1,
QUATERNION=2. -/
theorem enumerator_values :
    (enumsOf fixture).map (fun e => (qualifiedName e, enumValues e)) =
      [ ("person::IDs::Types",
          some [ ("NONE", 100), ("PERSON_ONE", 101), ("PERSON_TWO", 102),
                 ("PERSON_THREE", 103), ("PERSON_FOUR", 104) ]),
        ("room::IDs::app::Types",
          some [ ("NONE", 200), ("ROOM_ONE", 201), ("ROOM_TWO", 202),
                 ("ROOM_THREE", 203), ("ROOM_FOUR", 204) ]),
        ("SomeClassWithTypesEnum::Types",
          some [("TENSOR", 0), ("TRANSFORM", 1), ("QUATERNION", 2)]),
        ("AClassWithTypesEnum::Types",
          some [("TENSOR", 0), ("TRANSFORM", 1), ("QUATERNION", 2)]) ] := by
  decide

/-- C6: in every enum of the fixture each enumerator has a value and distinct
enumerators have distinct values; over the two namespace-scoped enums taken
together, equal values force the same enum and the same enumerator, so no value
of person::IDs::Types equals one of room::IDs::app::Types, although both
declare NONE. -/
theorem values_injective :
    (∀ e ∈ enumsOf fixture, ∀ a ∈ enumeratorNames e, (valueOf e a).isSome = true) ∧
    (∀ e ∈ enumsOf fixture, ∀ a ∈ enumeratorNames e, ∀ b ∈ enumeratorNames e,
      valueOf e a = valueOf e b → a = b) ∧
    ((enumsOf fixture).filter inNamespace).map qualifiedName =
      ["person::IDs::Types", "room::IDs::app::Types"] ∧
    (∀ e ∈ (enumsOf fixture).filter inNamespace,
      ∀ e2 ∈ (enumsOf fixture).filter inNamespace,
      ∀ a ∈ enumeratorNames e, ∀ b ∈ enumeratorNames e2,
        valueOf e a = valueOf e2 b → e = e2 ∧ a = b) ∧
    (∀ e ∈ (enumsOf fixture).filter inNamespace, "NONE" ∈ enumeratorNames e) ∧
    ((enumsOf fixture).filter inNamespace).map (fun e => valueOf e "NONE") =
      [some 100, some 200] := by
  decide

/-- C7: the four enum classes share the name `Types`, their fully qualified
names are pairwise distinct, no scope of the file declares two enums of the
same name, and the namespace name IDs occurs under the two parents person and
room. -/
theorem qualified_names_distinct :
    (enumsOf fixture).map qualifiedName =
      [ "person::IDs::Types", "room::IDs::app::Types",
        "SomeClassWithTypesEnum::Types", "AClassWithTypesEnum::Types" ] ∧
    ((enumsOf fixture).map qualifiedName).Nodup ∧
    (enumsOf fixture).map (fun e => e.name) = ["Types", "Types", "Types", "Types"] ∧
    (∀ p ∈ scopePaths fixture, (enumNamesIn fixture p).Nodup) ∧
    ((scopePaths fixture).map fun p => (p, enumNamesIn fixture p)) =
      [ ([], []), (["person"], []), (["person", "IDs"], ["Types"]),
        (["room"], []), (["room", "IDs"], []), (["room", "IDs", "app"], ["Types"]),
        (["SomeClassWithTypesEnum"], ["Types"]), (["AClassWithTypesEnum"], ["Types"]) ] ∧
    ((allDecls fixture).filter fun d => d.2.1 = "IDs") =
      [(["person"], "IDs", .nspace), (["room"], "IDs", .nspace)] := by
  decide

end Test1
